/-
Verification of the Phaser `LightPipeline`
(src/src/renderer/webgl/pipelines/LightPipeline.js) against its
natural-language specification.

The file contains a shallow embedding of the pipeline's batching,
uniform-synchronisation, normal-map-rotation and normal-map-resolution
logic, followed by theorems settling the specification's claims.

Conventions:
* JavaScript numbers are modelled as `ℚ` where the code only does
  field arithmetic, and as `ℝ` where trigonometry is involved
  (`setNormalMapRotation`).
* The shared `Float32Array` vertex view is modelled as a total function
  `ℕ → ℚ` from component index to stored value.
* GPU-visible side effects (draw submissions, uniform uploads) are
  modelled as explicit event traces returned next to the new state.
-/
import Mathlib

namespace LightPipeline

/-! ### The batch buffer (`batchVert` / `batchLight`)

The pipeline's attribute layout is `inPosition(2f)`, `inLightPosition(2f)`,
`inLightRadius(1f)`, `inLightColor(4f)`: nine float components per vertex.
`this.currentShader.vertexComponentCount` therefore evaluates to 9 for the
Light shader, and that is the stride (in floats) used by `batchVert`. -/

def vertexComponentCount : ℕ := 9

/-- One cell update of the shared `Float32Array` view
(`vertexViewF32[i] = v`). -/
def writeF (buf : ℕ → ℚ) (i : ℕ) (v : ℚ) : ℕ → ℚ :=
  fun j => if j = i then v else buf j

/-- The pipeline state that `batchVert` / `batchLight` touch:
the buffer capacity in vertices (`vertexCapacity`), the write cursor
(`vertexCount`) and the interleaved float view (`vertexViewF32`). -/
structure BatchState where
  vertexCapacity : ℕ
  vertexCount : ℕ
  buf : ℕ → ℚ

/-- The `color` object of a Light (`light.color.{r,g,b}`). -/
structure RGB where
  r : ℚ
  g : ℚ
  b : ℚ
  deriving DecidableEq

/-- The fields of a Light game object that the pipeline reads.
The Light itself is owned by the external light manager. -/
structure Light where
  x : ℚ
  y : ℚ
  color : RGB
  r : ℚ
  g : ℚ
  b : ℚ
  intensity : ℚ
  radius : ℚ
  alpha : ℚ
  scrollFactorX : ℚ
  scrollFactorY : ℚ
  dirty : Bool

/-- The fields of the Camera that the pipeline reads.  `matrix` is the
camera's transform matrix, kept abstract as the map it applies to a world
point (`TransformMatrix#transformPoint` lives outside the embedded file). -/
structure Camera where
  x : ℚ
  y : ℚ
  rotation : ℚ
  zoom : ℚ
  scrollX : ℚ
  scrollY : ℚ
  alpha : ℚ
  dirty : Bool
  matrix : ℚ → ℚ → ℚ × ℚ

/-- One packed vertex: the nine floats written by `batchVert`, in the
order the code writes them. -/
structure LightVertex where
  x : ℚ
  y : ℚ
  lightX : ℚ
  lightY : ℚ
  radius : ℚ
  r : ℚ
  g : ℚ
  b : ℚ
  a : ℚ
  deriving DecidableEq

/-- Observable effects of the batching entry points: a GPU submission
(`flush`) or one vertex appended to the batch. -/
inductive BEvent where
  | flush : BEvent
  | vert : LightVertex → BEvent
  deriving DecidableEq

/-- `batchVert(x, y, lightX, lightY, radius, r, g, b, a)`: writes the nine
components at offset `vertexCount * vertexComponentCount` (the code starts
at that product minus one and pre-increments before each store), then
increments `vertexCount`. -/
def batchVert (st : BatchState) (x y lightX lightY radius r g b a : ℚ) :
    BatchState :=
  let vertexOffset := st.vertexCount * vertexComponentCount
  let b0 := writeF st.buf vertexOffset x
  let b1 := writeF b0 (vertexOffset + 1) y
  let b2 := writeF b1 (vertexOffset + 2) lightX
  let b3 := writeF b2 (vertexOffset + 3) lightY
  let b4 := writeF b3 (vertexOffset + 4) radius
  let b5 := writeF b4 (vertexOffset + 5) r
  let b6 := writeF b5 (vertexOffset + 6) g
  let b7 := writeF b6 (vertexOffset + 7) b
  let b8 := writeF b7 (vertexOffset + 8) a
  { st with buf := b8, vertexCount := st.vertexCount + 1 }

/-- Modelled from the spec: `shouldFlush(amount)` of the `WebGLPipeline`
base class (not part of the embedded file) — the batch buffer cannot hold
`amount` more vertices, i.e. has no room for them. -/
def shouldFlush (st : BatchState) (amount : ℕ) : Prop :=
  st.vertexCapacity < st.vertexCount + amount

instance (st : BatchState) (amount : ℕ) : Decidable (shouldFlush st amount) :=
  inferInstanceAs (Decidable (_ < _))

/-- Modelled from the spec: `flush()` of the `WebGLPipeline` base class
(not part of the embedded file) — submits the accumulated vertices to the
GPU and resets the write cursor to zero.  The buffer contents themselves
are retained (subsequent writes overwrite them). -/
def flush (st : BatchState) : BatchState :=
  { st with vertexCount := 0 }

/-- The six vertices that one `batchLight` call writes, in write order:
the triangles `(corner0, corner1, corner2)` and `(corner0, corner2, corner3)`,
all six sharing the same light-derived fields. -/
def quadVert (light : Light) (camera : Camera)
    (x0 y0 x1 y1 x2 y2 x3 y3 lightX lightY : ℚ) : Fin 6 → LightVertex :=
  let r := light.color.r * light.intensity
  let g := light.color.g * light.intensity
  let b := light.color.b * light.intensity
  let a := camera.alpha * light.alpha
  fun j =>
    match j with
    | 0 => ⟨x0, y0, lightX, lightY, light.radius, r, g, b, a⟩
    | 1 => ⟨x1, y1, lightX, lightY, light.radius, r, g, b, a⟩
    | 2 => ⟨x2, y2, lightX, lightY, light.radius, r, g, b, a⟩
    | 3 => ⟨x0, y0, lightX, lightY, light.radius, r, g, b, a⟩
    | 4 => ⟨x2, y2, lightX, lightY, light.radius, r, g, b, a⟩
    | 5 => ⟨x3, y3, lightX, lightY, light.radius, r, g, b, a⟩

/-- `batchLight(light, camera, x0, y0, x1, y1, x2, y2, x3, y3, lightX, lightY)`:
computes the premultiplied colour, flushes first when the buffer cannot
hold six more vertices, then writes the six quad vertices via `batchVert`.
Returns the new state together with the trace of observable events. -/
def batchLight (st : BatchState) (light : Light) (camera : Camera)
    (x0 y0 x1 y1 x2 y2 x3 y3 lightX lightY : ℚ) :
    BatchState × List BEvent :=
  let radius := light.radius
  let r := light.color.r * light.intensity
  let g := light.color.g * light.intensity
  let b := light.color.b * light.intensity
  let a := camera.alpha * light.alpha
  let (st1, ev1) :=
    if shouldFlush st 6 then (flush st, [BEvent.flush]) else (st, [])
  let s2 := batchVert st1 x0 y0 lightX lightY radius r g b a
  let s3 := batchVert s2 x1 y1 lightX lightY radius r g b a
  let s4 := batchVert s3 x2 y2 lightX lightY radius r g b a
  let s5 := batchVert s4 x0 y0 lightX lightY radius r g b a
  let s6 := batchVert s5 x2 y2 lightX lightY radius r g b a
  let s7 := batchVert s6 x3 y3 lightX lightY radius r g b a
  (s7,
    ev1 ++
      [BEvent.vert ⟨x0, y0, lightX, lightY, radius, r, g, b, a⟩,
       BEvent.vert ⟨x1, y1, lightX, lightY, radius, r, g, b, a⟩,
       BEvent.vert ⟨x2, y2, lightX, lightY, radius, r, g, b, a⟩,
       BEvent.vert ⟨x0, y0, lightX, lightY, radius, r, g, b, a⟩,
       BEvent.vert ⟨x2, y2, lightX, lightY, radius, r, g, b, a⟩,
       BEvent.vert ⟨x3, y3, lightX, lightY, radius, r, g, b, a⟩])

/-- Reading one packed vertex back out of the float view. -/
def readVert (buf : ℕ → ℚ) (k : ℕ) : LightVertex :=
  ⟨buf (k * vertexComponentCount),
   buf (k * vertexComponentCount + 1),
   buf (k * vertexComponentCount + 2),
   buf (k * vertexComponentCount + 3),
   buf (k * vertexComponentCount + 4),
   buf (k * vertexComponentCount + 5),
   buf (k * vertexComponentCount + 6),
   buf (k * vertexComponentCount + 7),
   buf (k * vertexComponentCount + 8)⟩

/-- The arguments of one `batchLight` call, bundled so that call
sequences can be expressed as lists. -/
structure CallArgs where
  light : Light
  camera : Camera
  x0 : ℚ
  y0 : ℚ
  x1 : ℚ
  y1 : ℚ
  x2 : ℚ
  y2 : ℚ
  x3 : ℚ
  y3 : ℚ
  lightX : ℚ
  lightY : ℚ

/-- The six vertices a call contributes, in write order: the triangles
`(corner0, corner1, corner2)` and `(corner0, corner2, corner3)`, all six
sharing the same light-derived fields. -/
def quadList (c : CallArgs) : List LightVertex :=
  [⟨c.x0, c.y0, c.lightX, c.lightY, c.light.radius,
    c.light.color.r * c.light.intensity, c.light.color.g * c.light.intensity,
    c.light.color.b * c.light.intensity, c.camera.alpha * c.light.alpha⟩,
   ⟨c.x1, c.y1, c.lightX, c.lightY, c.light.radius,
    c.light.color.r * c.light.intensity, c.light.color.g * c.light.intensity,
    c.light.color.b * c.light.intensity, c.camera.alpha * c.light.alpha⟩,
   ⟨c.x2, c.y2, c.lightX, c.lightY, c.light.radius,
    c.light.color.r * c.light.intensity, c.light.color.g * c.light.intensity,
    c.light.color.b * c.light.intensity, c.camera.alpha * c.light.alpha⟩,
   ⟨c.x0, c.y0, c.lightX, c.lightY, c.light.radius,
    c.light.color.r * c.light.intensity, c.light.color.g * c.light.intensity,
    c.light.color.b * c.light.intensity, c.camera.alpha * c.light.alpha⟩,
   ⟨c.x2, c.y2, c.lightX, c.lightY, c.light.radius,
    c.light.color.r * c.light.intensity, c.light.color.g * c.light.intensity,
    c.light.color.b * c.light.intensity, c.camera.alpha * c.light.alpha⟩,
   ⟨c.x3, c.y3, c.lightX, c.lightY, c.light.radius,
    c.light.color.r * c.light.intensity, c.light.color.g * c.light.intensity,
    c.light.color.b * c.light.intensity, c.camera.alpha * c.light.alpha⟩]

/-- The event trace of one `batchLight` call when no flush intervenes. -/
def callEvents (c : CallArgs) : List BEvent :=
  (quadList c).map BEvent.vert

/-- Writing a list of vertices one `batchVert` call at a time. -/
def writeVerts (st : BatchState) (vs : List LightVertex) : BatchState :=
  vs.foldl
    (fun s v => batchVert s v.x v.y v.lightX v.lightY v.radius v.r v.g v.b v.a)
    st

/-- Dispatching one bundled call to `batchLight`. -/
def applyCall (st : BatchState) (c : CallArgs) : BatchState × List BEvent :=
  batchLight st c.light c.camera c.x0 c.y0 c.x1 c.y1 c.x2 c.y2 c.x3 c.y3
    c.lightX c.lightY

/-- A sequence of `batchLight` calls, accumulating the event traces. -/
def batchLights (st : BatchState) : List CallArgs → BatchState × List BEvent
  | [] => (st, [])
  | c :: cs =>
    let r := applyCall st c
    let rest := batchLights r.1 cs
    (rest.1, r.2 ++ rest.2)

/-! ### Normal-map rotation (`setNormalMapRotation`)

The rotation state is modelled over `ℝ` because the code calls
`Math.cos` / `Math.sin`.  The `inverseRotationMatrix` is the pipeline's
`Float32Array` of nine entries (indices 0–8), uploaded with
`setMatrix3(..., false, ...)`, i.e. consumed by WebGL in column-major
order: the mathematical entry at row `i`, column `j` is the stored entry
`3 * j + i`. -/

/-- The nine entries of the `inverseRotationMatrix` `Float32Array`,
field `mN` holding index `N`. -/
structure Mat3 where
  m0 : ℝ
  m1 : ℝ
  m2 : ℝ
  m3 : ℝ
  m4 : ℝ
  m5 : ℝ
  m6 : ℝ
  m7 : ℝ
  m8 : ℝ

/-- The mathematical matrix entry at row `i`, column `j` of the uploaded
matrix: WebGL's `uniformMatrix3fv` with `transpose = false` reads the
array column-major, so entry `(i, j)` is stored at index `3 * j + i`. -/
def Mat3.entry (m : Mat3) (i j : Fin 3) : ℝ :=
  match i, j with
  | 0, 0 => m.m0
  | 1, 0 => m.m1
  | 2, 0 => m.m2
  | 0, 1 => m.m3
  | 1, 1 => m.m4
  | 2, 1 => m.m5
  | 0, 2 => m.m6
  | 1, 2 => m.m7
  | 2, 2 => m.m8

/-- The constructor's initial `inverseRotationMatrix`:
`[1, 0, 0, 0, 1, 0, 0, 0, 1]`. -/
def idMat3 : Mat3 := ⟨1, 0, 0, 0, 1, 0, 0, 0, 1⟩

/-- Entries 2, 5, 6, 7 are 0 and entry 8 is 1: only the top-left 2×2
block of the homogeneous matrix is populated with rotation data. -/
def Mat3.fixedHomogeneousPart (m : Mat3) : Prop :=
  m.m2 = 0 ∧ m.m5 = 0 ∧ m.m6 = 0 ∧ m.m7 = 0 ∧ m.m8 = 1

/-- The pipeline state read and written by `setNormalMapRotation`:
the batch cursor (`vertexCount`), the last-applied rotation
(`currentNormalMapRotation`, never initialised by the constructor, hence
an `Option`) and the stored matrix. -/
structure RotState where
  vertexCount : ℕ
  currentNormalMapRotation : Option ℝ
  inverseRotationMatrix : Mat3

/-- Observable GPU effects of `setNormalMapRotation`: a flush of pending
geometry, or the `uInverseRotationMatrix` uniform upload. -/
inductive REvent where
  | flush : REvent
  | uploadMatrix : Mat3 → REvent

/-- `setNormalMapRotation(rotation)`: no-op when the angle equals the
last-applied one and vertices are pending; otherwise flush pending
geometry, rebuild the matrix's 2×2 block (trigonometric for a truthy,
i.e. non-zero, angle; the explicit identity otherwise) and upload it.
The flush of the `WebGLPipeline` base class is modelled from the spec as
resetting the write cursor. -/
noncomputable def setNormalMapRotation (st : RotState) (rotation : ℝ) :
    RotState × List REvent :=
  if some rotation ≠ st.currentNormalMapRotation ∨ st.vertexCount = 0 then
    let (st1, ev1) :=
      if 0 < st.vertexCount then
        ({ st with vertexCount := 0 }, [REvent.flush])
      else (st, [])
    let m :=
      if rotation ≠ 0 then
        let rot := -rotation
        let c := Real.cos rot
        let s := Real.sin rot
        { st1.inverseRotationMatrix with m1 := s, m3 := -s, m0 := c, m4 := c }
      else
        { st1.inverseRotationMatrix with m0 := 1, m4 := 1, m1 := 0, m3 := 0 }
    ({ st1 with
        inverseRotationMatrix := m,
        currentNormalMapRotation := some rotation },
     ev1 ++ [REvent.uploadMatrix m])
  else (st, [])

/-- The matrix the spec describes for angle `a`: the rotation-by-`-a`
matrix in the top-left 2×2 block of the identity, written in the
column-major storage order of `Mat3`. -/
noncomputable def specInverseRotation (a : ℝ) : Mat3 :=
  ⟨Real.cos (-a), Real.sin (-a), 0,
   -Real.sin (-a), Real.cos (-a), 0,
   0, 0, 1⟩

/-! ### Per-camera-pass uniform synchronisation (`onRender`)

`onRender` appears in the embedded file at lines 304–374 (it is presently
commented out there; the claims cite those lines, so they are embedded as
written).  The GPU-side `uLights[i]` uniform structs are modelled as a
slot array `ℕ → UniSlot`; every `renderer.setFloatN` call both updates the
slot state and appends an event.  The camera transform
(`TransformMatrix#transformPoint`) lives outside the embedded file and is
kept abstract as the `Camera.matrix` function.  The culled light list is
the input (`lightManager.cull` is the external light manager's), and
`LIGHT_COUNT` is the `cap` parameter.  The trailing
`this.currentNormalMapRotation = null` touches only the rotation state
modelled separately in `RotState`. -/

/-- The shader-visible fields of one `uLights[i]` uniform slot. -/
structure UniSlot where
  posX : ℚ
  posY : ℚ
  colorR : ℚ
  colorG : ℚ
  colorB : ℚ
  intensity : ℚ
  radius : ℚ
  deriving DecidableEq

/-- Pipeline state read and written by `onRender`: the `active` flag,
the previously synced light count (`this.lightCount`) and the uniform
slots. -/
structure UniformState where
  active : Bool
  lightCount : ℕ
  slots : ℕ → UniSlot

/-- One uniform upload performed during `onRender`. -/
inductive UEvent where
  | resetRadius : ℕ → UEvent
  | uploadCamera : ℚ → ℚ → ℚ → ℚ → UEvent
  | uploadAmbient : ℚ → ℚ → ℚ → UEvent
  | uploadPosition : ℕ → ℚ → ℚ → UEvent
  | uploadColor : ℕ → ℚ → ℚ → ℚ → UEvent
  | uploadIntensity : ℕ → ℚ → UEvent
  | uploadRadius : ℕ → ℚ → UEvent
  deriving DecidableEq

/-- The reset loop `for (i = 0; i < LIGHT_COUNT; i++) uLights[i].radius = 0`. -/
def resetRadii (slots : ℕ → UniSlot) (cap : ℕ) : ℕ → UniSlot :=
  fun j => if j < cap then { slots j with radius := 0 } else slots j

/-- One iteration of the per-light loop: transform the light's world
position through the camera matrix, upload the screen position
unconditionally, and, when the light is dirty, also upload colour,
intensity and radius and clear the dirty flag. -/
def syncLight (height : ℚ) (camera : Camera) (slots : ℕ → UniSlot)
    (i : ℕ) (light : Light) : (ℕ → UniSlot) × Light × List UEvent :=
  let point := camera.matrix light.x light.y
  let px := point.1 - camera.scrollX * light.scrollFactorX * camera.zoom
  let py := height -
    (point.2 - (camera.scrollY * light.scrollFactorY) * camera.zoom)
  let slots1 : ℕ → UniSlot :=
    fun j => if j = i then { slots j with posX := px, posY := py }
             else slots j
  if light.dirty then
    (fun j => if j = i then
        { slots1 j with
          colorR := light.r
          colorG := light.g
          colorB := light.b
          intensity := light.intensity
          radius := light.radius }
      else slots1 j,
     { light with dirty := false },
     [UEvent.uploadPosition i px py,
      UEvent.uploadColor i light.r light.g light.b,
      UEvent.uploadIntensity i light.intensity,
      UEvent.uploadRadius i light.radius])
  else
    (slots1, light, [UEvent.uploadPosition i px py])

/-- The per-light loop `for (i = 0; i < lightCount; i++)`, threading the
slot array, returning the (possibly dirty-cleared) lights and the event
trace. -/
def syncLights (height : ℚ) (camera : Camera) :
    (ℕ → UniSlot) → ℕ → List Light → (ℕ → UniSlot) × List Light × List UEvent
  | slots, _, [] => (slots, [], [])
  | slots, i, l :: ls =>
    let r := syncLight height camera slots i l
    let rest := syncLights height camera r.1 (i + 1) ls
    (rest.1, r.2.1 :: rest.2.1, r.2.2 ++ rest.2.2)

/-- `onRender(scene, camera)` for one camera pass, given the culled light
list.  An empty effective light count is a pass-through (the `active`
flag stays off and nothing is uploaded); otherwise: reset every radius
slot if the count changed (recording the new count), upload the camera
uniform if the camera is dirty, upload the ambient colour
unconditionally, then run the per-light loop. -/
def onRender (cap : ℕ) (height : ℚ) (ambient : RGB) (st : UniformState)
    (lights : List Light) (camera : Camera) :
    UniformState × List Light × List UEvent :=
  let lightCount := min lights.length cap
  if lightCount = 0 then ({ st with active := false }, lights, [])
  else
    let (slots1, ev1, lc1) :=
      if lightCount ≠ st.lightCount then
        (resetRadii st.slots cap, (List.range cap).map UEvent.resetRadius,
         lightCount)
      else (st.slots, [], st.lightCount)
    let ev2 :=
      if camera.dirty then
        [UEvent.uploadCamera camera.x camera.y camera.rotation camera.zoom]
      else []
    let ev3 := [UEvent.uploadAmbient ambient.r ambient.g ambient.b]
    let r := syncLights height camera slots1 0 (lights.take lightCount)
    ({ active := true, lightCount := lc1, slots := r.1 },
     r.2.1 ++ lights.drop lightCount,
     ev1 ++ ev2 ++ ev3 ++ r.2.2)

/-- The screen position the spec prescribes for a light: world position
through the camera's transform matrix, scroll offset scaled by zoom and
scroll factor subtracted, Y flipped against the render-target height. -/
def specLightScreenPos (height : ℚ) (camera : Camera) (light : Light) :
    ℚ × ℚ :=
  ((camera.matrix light.x light.y).1 -
      camera.scrollX * light.scrollFactorX * camera.zoom,
   height - ((camera.matrix light.x light.y).2 -
      (camera.scrollY * light.scrollFactorY) * camera.zoom))

/-! ### Normal-map resolution (`getNormalMap` / `boot`) -/

/-- A GPU texture's observable content: dimensions and RGBA bytes. -/
structure TexData where
  width : ℕ
  height : ℕ
  pixels : List ℕ
  deriving DecidableEq

/-- A texture source object carrying a `glTexture`. -/
structure TexSource where
  glTexture : TexData
  deriving DecidableEq

/-- A Phaser texture as `getNormalMap` sees it: its `dataSource` array
(entries may be null/undefined). -/
structure PhTexture where
  dataSource : List (Option TexSource)
  deriving DecidableEq

/-- A frame: only `sourceIndex` is read. -/
structure PhFrame where
  sourceIndex : ℕ
  deriving DecidableEq

/-- A tileset: only `image.dataSource` is read. -/
structure Tileset where
  image : PhTexture
  deriving DecidableEq

/-- The `tileset` property of a game object: a single tileset or an
array of tilesets. -/
inductive TilesetProp where
  | single : Tileset → TilesetProp
  | arr : List Tileset → TilesetProp
  deriving DecidableEq

/-- The fields of a renderable that `getNormalMap` inspects. -/
structure GameObject where
  displayTexture : Option PhTexture
  displayFrame : PhFrame
  texture : Option PhTexture
  frame : PhFrame
  tileset : Option TilesetProp
  deriving DecidableEq

/-- The piece of pipeline state that `boot` creates and `getNormalMap`
falls back to. -/
structure TexState where
  defaultNormalMap : TexSource
  deriving DecidableEq

/-- The 1×1 `#7f7fff` texture `boot` uploads: bytes (127, 127, 255, 255),
a flat, camera-facing normal. -/
def flatNormalTexture : TexData := ⟨1, 1, [127, 127, 255, 255]⟩

/-- `boot()`: creates the default normal map texture once the game has
booted (the GL calls are abstracted to the texture content they produce).
-/
def boot : TexState := ⟨⟨flatNormalTexture⟩⟩

/-- `getNormalMap(gameObject)`: resolve the normal-map texture through
the `displayTexture` / `texture` / `tileset` chain, falling back to the
pipeline's default normal map.  JavaScript array indexing out of range
yields `undefined` (modelled by `List.getD _ none`); the one genuinely
throwing access (`tileset[0].image` on an empty tileset array) is
modelled as `none` at the outer level. -/
def getNormalMap (st : TexState) (gameObject : Option GameObject) :
    Option TexData :=
  let step : Option (Option TexSource) :=
    match gameObject with
    | none => some (some st.defaultNormalMap)
    | some g =>
      match g.displayTexture with
      | some dt => some (dt.dataSource.getD g.displayFrame.sourceIndex none)
      | none =>
        match g.texture with
        | some t => some (t.dataSource.getD g.frame.sourceIndex none)
        | none =>
          match g.tileset with
          | some (TilesetProp.arr []) => none
          | some (TilesetProp.arr (t :: _)) =>
            some (t.image.dataSource.getD 0 none)
          | some (TilesetProp.single t) =>
            some (t.image.dataSource.getD 0 none)
          | none => some none
  step.map fun normalTexture =>
    (normalTexture.getD st.defaultNormalMap).glTexture

/-- "No normal map is resolvable by any of the resolution paths": each
path, where applicable, yields nothing — the display texture's data
source has no entry at the display frame's source index, the plain
texture's data source has no entry at the frame's source index, and the
tileset path (single or non-empty array) has no entry at index 0 of its
image's data source. -/
def noResolvableNormalMap (g : GameObject) : Prop :=
  (∀ dt, g.displayTexture = some dt →
    dt.dataSource.getD g.displayFrame.sourceIndex none = none) ∧
  (∀ t, g.texture = some t →
    t.dataSource.getD g.frame.sourceIndex none = none) ∧
  (∀ t, g.tileset = some (TilesetProp.single t) →
    t.image.dataSource.getD 0 none = none) ∧
  (∀ t ts, g.tileset = some (TilesetProp.arr (t :: ts)) →
    t.image.dataSource.getD 0 none = none) ∧
  g.tileset ≠ some (TilesetProp.arr [])

/-! ### Basic lemmas about `batchVert` -/

theorem batchVert_vertexCount (st : BatchState)
    (x y lightX lightY radius r g b a : ℚ) :
    (batchVert st x y lightX lightY radius r g b a).vertexCount =
      st.vertexCount + 1 := rfl

theorem batchVert_vertexCapacity (st : BatchState)
    (x y lightX lightY radius r g b a : ℚ) :
    (batchVert st x y lightX lightY radius r g b a).vertexCapacity =
      st.vertexCapacity := rfl

theorem batchVert_buf_past (st : BatchState)
    (x y lightX lightY radius r g b a : ℚ) (i : ℕ)
    (h : i < st.vertexCount * vertexComponentCount) :
    (batchVert st x y lightX lightY radius r g b a).buf i = st.buf i := by
  simp only [vertexComponentCount] at h
  simp only [batchVert, writeF, vertexComponentCount]
  split_ifs <;> first | rfl | omega

theorem batchVert_buf_future (st : BatchState)
    (x y lightX lightY radius r g b a : ℚ) (i : ℕ)
    (h : st.vertexCount * vertexComponentCount + 9 ≤ i) :
    (batchVert st x y lightX lightY radius r g b a).buf i = st.buf i := by
  simp only [vertexComponentCount] at h
  simp only [batchVert, writeF, vertexComponentCount]
  split_ifs <;> first | rfl | omega

theorem readVert_batchVert_of_lt (st : BatchState)
    (x y lightX lightY radius r g b a : ℚ) (k : ℕ) (h : k < st.vertexCount) :
    readVert (batchVert st x y lightX lightY radius r g b a).buf k =
      readVert st.buf k := by
  have H : ∀ m : ℕ, m < 9 →
      (batchVert st x y lightX lightY radius r g b a).buf
        (k * vertexComponentCount + m) =
      st.buf (k * vertexComponentCount + m) := by
    intro m hm
    exact batchVert_buf_past st x y lightX lightY radius r g b a _
      (by simp only [vertexComponentCount]; omega)
  have H0 : (batchVert st x y lightX lightY radius r g b a).buf
      (k * vertexComponentCount) = st.buf (k * vertexComponentCount) := by
    simpa using H 0 (by norm_num)
  simp only [readVert, H0, H 1 (by norm_num), H 2 (by norm_num),
    H 3 (by norm_num), H 4 (by norm_num), H 5 (by norm_num),
    H 6 (by norm_num), H 7 (by norm_num), H 8 (by norm_num)]

theorem readVert_batchVert_self (st : BatchState)
    (x y lightX lightY radius r g b a : ℚ) :
    readVert (batchVert st x y lightX lightY radius r g b a).buf
      st.vertexCount = ⟨x, y, lightX, lightY, radius, r, g, b, a⟩ := by
  simp [readVert, batchVert, writeF, vertexComponentCount]

/-! ### Lemmas about `writeVerts` and `batchLight` -/

theorem writeVerts_nil (st : BatchState) : writeVerts st [] = st := rfl

theorem writeVerts_cons (st : BatchState) (v : LightVertex)
    (vs : List LightVertex) :
    writeVerts st (v :: vs) =
      writeVerts (batchVert st v.x v.y v.lightX v.lightY v.radius
        v.r v.g v.b v.a) vs := rfl

theorem writeVerts_vertexCapacity (vs : List LightVertex) :
    ∀ st : BatchState, (writeVerts st vs).vertexCapacity =
      st.vertexCapacity := by
  induction vs with
  | nil => intro st; rfl
  | cons v vs ih =>
    intro st
    rw [writeVerts_cons, ih, batchVert_vertexCapacity]

theorem writeVerts_vertexCount (vs : List LightVertex) :
    ∀ st : BatchState, (writeVerts st vs).vertexCount =
      st.vertexCount + vs.length := by
  induction vs with
  | nil => intro st; rfl
  | cons v vs ih =>
    intro st
    rw [writeVerts_cons, ih, batchVert_vertexCount, List.length_cons]
    omega

theorem readVert_writeVerts_of_lt (vs : List LightVertex) :
    ∀ (st : BatchState) (k : ℕ), k < st.vertexCount →
      readVert (writeVerts st vs).buf k = readVert st.buf k := by
  induction vs with
  | nil => intro st k _; rfl
  | cons v vs ih =>
    intro st k hk
    rw [writeVerts_cons,
      ih _ k (by rw [batchVert_vertexCount]; omega),
      readVert_batchVert_of_lt _ _ _ _ _ _ _ _ _ _ _ hk]

theorem readVert_writeVerts_get (vs : List LightVertex) :
    ∀ (st : BatchState) (t : ℕ) (ht : t < vs.length),
      readVert (writeVerts st vs).buf (st.vertexCount + t) =
        vs.get ⟨t, ht⟩ := by
  induction vs with
  | nil => intro st t ht; simp at ht
  | cons v vs ih =>
    intro st t ht
    match t with
    | 0 =>
      rw [writeVerts_cons, Nat.add_zero,
        readVert_writeVerts_of_lt vs _ st.vertexCount
          (by rw [batchVert_vertexCount]; omega),
        readVert_batchVert_self]
      rfl
    | t + 1 =>
      rw [writeVerts_cons,
        show st.vertexCount + (t + 1) =
          (batchVert st v.x v.y v.lightX v.lightY v.radius
            v.r v.g v.b v.a).vertexCount + t by
          rw [batchVert_vertexCount]; omega,
        ih _ t (by simpa using ht)]
      rfl

/-- `batchLight` decomposed into the optional leading flush followed by the
six vertex writes. -/
theorem applyCall_eq (st : BatchState) (c : CallArgs) :
    applyCall st c =
      (writeVerts (if shouldFlush st 6 then flush st else st) (quadList c),
       (if shouldFlush st 6 then [BEvent.flush] else []) ++ callEvents c) := by
  by_cases hf : shouldFlush st 6 <;>
    simp only [applyCall, batchLight, hf, if_true, if_false, callEvents,
      quadList, writeVerts, List.foldl, List.map]

theorem batchLights_spec (cs : List CallArgs) :
    ∀ st : BatchState,
      st.vertexCount + 6 * cs.length ≤ st.vertexCapacity →
      (batchLights st cs).1.vertexCapacity = st.vertexCapacity ∧
      (batchLights st cs).1.vertexCount = st.vertexCount + 6 * cs.length ∧
      (batchLights st cs).2 = (cs.map callEvents).flatten ∧
      (∀ k, k < st.vertexCount →
        readVert (batchLights st cs).1.buf k = readVert st.buf k) ∧
      (∀ n (hn : n < cs.length) (j : Fin 6),
        readVert (batchLights st cs).1.buf (st.vertexCount + (6 * n + j)) =
          (quadList (cs.get ⟨n, hn⟩)).get ⟨j, by simp [quadList]⟩) := by
  induction cs with
  | nil =>
    intro st h
    refine ⟨rfl, by simp [batchLights], by simp [batchLights], ?_, ?_⟩
    · intro k _; rfl
    · intro n hn; simp at hn
  | cons c cs ih =>
    intro st h
    have hnf : ¬ shouldFlush st 6 := by
      simp only [shouldFlush, not_lt]
      simp only [List.length_cons] at h
      omega
    have hstep : applyCall st c = (writeVerts st (quadList c), callEvents c) := by
      rw [applyCall_eq]
      simp [hnf]
    have hbl : batchLights st (c :: cs) =
        ((batchLights (writeVerts st (quadList c)) cs).1,
         callEvents c ++ (batchLights (writeVerts st (quadList c)) cs).2) := by
      simp only [batchLights, hstep]
    have hqlen : (quadList c).length = 6 := by simp [quadList]
    have hcount : (writeVerts st (quadList c)).vertexCount =
        st.vertexCount + 6 := by
      rw [writeVerts_vertexCount, hqlen]
    have hcap : (writeVerts st (quadList c)).vertexCapacity =
        st.vertexCapacity := writeVerts_vertexCapacity _ _
    have hrec := ih (writeVerts st (quadList c))
      (by rw [hcount, hcap]; simp only [List.length_cons] at h; omega)
    obtain ⟨h1, h2, h3, h4, h5⟩ := hrec
    refine ⟨by rw [hbl]; exact h1.trans hcap, ?_, ?_, ?_, ?_⟩
    · rw [hbl]
      simp only at h2 ⊢
      rw [h2, hcount, List.length_cons]
      ring
    · rw [hbl]
      simp only at h3 ⊢
      rw [h3]
      simp
    · intro k hk
      rw [hbl]
      simp only
      rw [h4 k (by omega), readVert_writeVerts_of_lt _ _ _ hk]
    · intro n hn j
      rw [hbl]
      simp only
      match n with
      | 0 =>
        have hj : st.vertexCount + (6 * 0 + (j : ℕ)) =
            st.vertexCount + (j : ℕ) := by ring_nf
        rw [hj, h4 (st.vertexCount + (j : ℕ)) (by rw [hcount]; omega),
          readVert_writeVerts_get _ _ _ (by rw [hqlen]; exact j.isLt)]
        rfl
      | n + 1 =>
        have hn' : n < cs.length := by simpa using hn
        have harith : st.vertexCount + (6 * (n + 1) + (j : ℕ)) =
            (writeVerts st (quadList c)).vertexCount + (6 * n + (j : ℕ)) := by
          rw [hcount]; ring
        rw [harith, h5 n hn' j]
        rfl

/-! ### Claim theorems for the batching component -/

/-- C9: `batchVert` writes exactly the nine vertex fields, in the order
`x, y, lightX, lightY, radius, r, g, b, a`, contiguously at offset
`vertexCount × vertexComponentCount` in the shared buffer, leaves every
other buffer cell untouched, and increments `vertexCount` by exactly 1.
(The call is a single synchronous operation, so the count never observes a
partially written vertex.) -/
theorem batchVert_writes_one_vertex (st : BatchState)
    (x y lightX lightY radius r g b a : ℚ) :
    (batchVert st x y lightX lightY radius r g b a).vertexCount =
        st.vertexCount + 1 ∧
    readVert (batchVert st x y lightX lightY radius r g b a).buf
        st.vertexCount = ⟨x, y, lightX, lightY, radius, r, g, b, a⟩ ∧
    (∀ i, i < st.vertexCount * vertexComponentCount →
      (batchVert st x y lightX lightY radius r g b a).buf i = st.buf i) ∧
    (∀ i, st.vertexCount * vertexComponentCount + 9 ≤ i →
      (batchVert st x y lightX lightY radius r g b a).buf i = st.buf i) :=
  ⟨batchVert_vertexCount st x y lightX lightY radius r g b a,
   readVert_batchVert_self st x y lightX lightY radius r g b a,
   fun _ hi => batchVert_buf_past st x y lightX lightY radius r g b a _ hi,
   fun _ hi => batchVert_buf_future st x y lightX lightY radius r g b a _ hi⟩

/-- C9 witness: a concrete `batchVert` call, checked field by field. -/
theorem batchVert_writes_one_vertex_witness :
    (batchVert ⟨12, 1, fun _ => 0⟩ 2 3 4 5 6 7 8 9 10).vertexCount = 1 + 1 ∧
    readVert (batchVert ⟨12, 1, fun _ => 0⟩ 2 3 4 5 6 7 8 9 10).buf 1 =
      ⟨2, 3, 4, 5, 6, 7, 8, 9, 10⟩ ∧
    (∀ i, i < 1 * vertexComponentCount →
      (batchVert ⟨12, 1, fun _ => 0⟩ 2 3 4 5 6 7 8 9 10).buf i =
        (fun _ => (0 : ℚ)) i) ∧
    (∀ i, 1 * vertexComponentCount + 9 ≤ i →
      (batchVert ⟨12, 1, fun _ => 0⟩ 2 3 4 5 6 7 8 9 10).buf i =
        (fun _ => (0 : ℚ)) i) :=
  batchVert_writes_one_vertex ⟨12, 1, fun _ => 0⟩ 2 3 4 5 6 7 8 9 10

/-- C1: when the batch buffer cannot hold 6 more vertices, `batchLight`
flushes strictly before writing any of the quad's six vertices: the event
trace starts with the flush and continues with exactly the six vertex
writes, and (whenever the capacity is at least 6) the write cursor ends at
6 ≤ capacity, so the buffer does not overflow. -/
theorem batchLight_flush_before_overflowing_quad (st : BatchState)
    (light : Light) (camera : Camera)
    (x0 y0 x1 y1 x2 y2 x3 y3 lightX lightY : ℚ)
    (hfull : st.vertexCapacity < st.vertexCount + 6)
    (hcap : 6 ≤ st.vertexCapacity) :
    (batchLight st light camera x0 y0 x1 y1 x2 y2 x3 y3 lightX lightY).2 =
      BEvent.flush ::
        callEvents ⟨light, camera, x0, y0, x1, y1, x2, y2, x3, y3,
          lightX, lightY⟩ ∧
    (batchLight st light camera x0 y0 x1 y1 x2 y2 x3 y3
        lightX lightY).1.vertexCount = 6 ∧
    (batchLight st light camera x0 y0 x1 y1 x2 y2 x3 y3
        lightX lightY).1.vertexCount ≤ st.vertexCapacity := by
  have hf : shouldFlush st 6 := hfull
  have h := applyCall_eq st
    ⟨light, camera, x0, y0, x1, y1, x2, y2, x3, y3, lightX, lightY⟩
  simp only [applyCall, if_pos hf] at h
  have hc : (batchLight st light camera x0 y0 x1 y1 x2 y2 x3 y3
      lightX lightY).1.vertexCount = 6 := by
    rw [congrArg Prod.fst h, writeVerts_vertexCount]
    simp [flush, quadList]
  refine ⟨?_, hc, ?_⟩
  · rw [congrArg Prod.snd h]
    rfl
  · rw [hc]; exact hcap

/-- C1 witness: capacity 6 with 3 vertices already pending forces the
flush-first behaviour. -/
theorem batchLight_flush_before_overflowing_quad_witness :
    ((⟨6, 3, fun _ => 0⟩ : BatchState).vertexCapacity <
        (⟨6, 3, fun _ => 0⟩ : BatchState).vertexCount + 6) ∧
    (6 ≤ (⟨6, 3, fun _ => 0⟩ : BatchState).vertexCapacity) ∧
    ((batchLight ⟨6, 3, fun _ => 0⟩
        ⟨0, 0, ⟨1, 1, 1⟩, 1, 1, 1, 1, 1, 1, 1, 1, false⟩
        ⟨0, 0, 0, 1, 0, 0, 1, false, fun x y => (x, y)⟩
        0 0 1 0 1 1 0 1 5 5).2 =
      BEvent.flush ::
        callEvents ⟨⟨0, 0, ⟨1, 1, 1⟩, 1, 1, 1, 1, 1, 1, 1, 1, false⟩,
          ⟨0, 0, 0, 1, 0, 0, 1, false, fun x y => (x, y)⟩,
          0, 0, 1, 0, 1, 1, 0, 1, 5, 5⟩ ∧
      (batchLight ⟨6, 3, fun _ => 0⟩
        ⟨0, 0, ⟨1, 1, 1⟩, 1, 1, 1, 1, 1, 1, 1, 1, false⟩
        ⟨0, 0, 0, 1, 0, 0, 1, false, fun x y => (x, y)⟩
        0 0 1 0 1 1 0 1 5 5).1.vertexCount = 6 ∧
      (batchLight ⟨6, 3, fun _ => 0⟩
        ⟨0, 0, ⟨1, 1, 1⟩, 1, 1, 1, 1, 1, 1, 1, 1, false⟩
        ⟨0, 0, 0, 1, 0, 0, 1, false, fun x y => (x, y)⟩
        0 0 1 0 1 1 0 1 5 5).1.vertexCount ≤ 6) :=
  ⟨by norm_num, by norm_num,
    batchLight_flush_before_overflowing_quad ⟨6, 3, fun _ => 0⟩
      ⟨0, 0, ⟨1, 1, 1⟩, 1, 1, 1, 1, 1, 1, 1, 1, false⟩
      ⟨0, 0, 0, 1, 0, 0, 1, false, fun x y => (x, y)⟩
      0 0 1 0 1 1 0 1 5 5 (by norm_num) (by norm_num)⟩

/-- C2: for every sequence of `batchLight` calls that fits the buffer
capacity (starting from an empty batch), no flush occurs; afterwards the
write cursor is exactly `6 × N` and vertex `6 n + j` of the buffer is the
`j`-th vertex of the `n`-th call — the triangles
`(corner0, corner1, corner2)` and `(corner0, corner2, corner3)` with
identical light-derived fields on all six vertices (see `quadList`). -/
theorem batchLights_within_capacity (st : BatchState) (cs : List CallArgs)
    (h0 : st.vertexCount = 0) (hcap : 6 * cs.length ≤ st.vertexCapacity) :
    (∀ e ∈ (batchLights st cs).2, e ≠ BEvent.flush) ∧
    (batchLights st cs).2 = (cs.map callEvents).flatten ∧
    (batchLights st cs).1.vertexCount = 6 * cs.length ∧
    (∀ n (hn : n < cs.length) (j : Fin 6),
      readVert (batchLights st cs).1.buf (6 * n + (j : ℕ)) =
        (quadList (cs.get ⟨n, hn⟩)).get ⟨j, by simp [quadList]⟩) := by
  obtain ⟨-, h2, h3, -, h5⟩ := batchLights_spec cs st (by omega)
  refine ⟨?_, h3, by rw [h2, h0, Nat.zero_add], ?_⟩
  · intro e he
    rw [h3] at he
    obtain ⟨l, hl, hel⟩ := List.mem_flatten.1 he
    obtain ⟨c, -, rfl⟩ := List.mem_map.1 hl
    obtain ⟨v, -, rfl⟩ := List.mem_map.1 hel
    simp
  · intro n hn j
    have := h5 n hn j
    rwa [h0, Nat.zero_add] at this

/-- C2 witness: two concrete calls into an empty buffer of capacity 12. -/
theorem batchLights_within_capacity_witness :
    ((⟨12, 0, fun _ => 0⟩ : BatchState).vertexCount = 0) ∧
    (6 * ([⟨⟨0, 0, ⟨1, 1, 1⟩, 1, 1, 1, 1, 2, 1, 1, 1, false⟩,
           ⟨0, 0, 0, 1, 0, 0, 1, false, fun x y => (x, y)⟩,
           0, 0, 1, 0, 1, 1, 0, 1, 5, 5⟩,
          ⟨⟨0, 0, ⟨1, 1, 1⟩, 1, 1, 1, 1, 3, 1, 1, 1, false⟩,
           ⟨0, 0, 0, 1, 0, 0, 1, false, fun x y => (x, y)⟩,
           2, 2, 3, 2, 3, 3, 2, 3, 7, 7⟩] : List CallArgs).length ≤
        (⟨12, 0, fun _ => 0⟩ : BatchState).vertexCapacity) ∧
    ((∀ e ∈ (batchLights (⟨12, 0, fun _ => 0⟩ : BatchState)
        [⟨⟨0, 0, ⟨1, 1, 1⟩, 1, 1, 1, 1, 2, 1, 1, 1, false⟩,
          ⟨0, 0, 0, 1, 0, 0, 1, false, fun x y => (x, y)⟩,
          0, 0, 1, 0, 1, 1, 0, 1, 5, 5⟩,
         ⟨⟨0, 0, ⟨1, 1, 1⟩, 1, 1, 1, 1, 3, 1, 1, 1, false⟩,
          ⟨0, 0, 0, 1, 0, 0, 1, false, fun x y => (x, y)⟩,
          2, 2, 3, 2, 3, 3, 2, 3, 7, 7⟩]).2, e ≠ BEvent.flush) ∧
     (batchLights (⟨12, 0, fun _ => 0⟩ : BatchState)
        [⟨⟨0, 0, ⟨1, 1, 1⟩, 1, 1, 1, 1, 2, 1, 1, 1, false⟩,
          ⟨0, 0, 0, 1, 0, 0, 1, false, fun x y => (x, y)⟩,
          0, 0, 1, 0, 1, 1, 0, 1, 5, 5⟩,
         ⟨⟨0, 0, ⟨1, 1, 1⟩, 1, 1, 1, 1, 3, 1, 1, 1, false⟩,
          ⟨0, 0, 0, 1, 0, 0, 1, false, fun x y => (x, y)⟩,
          2, 2, 3, 2, 3, 3, 2, 3, 7, 7⟩]).1.vertexCount = 6 * 2) :=
  ⟨rfl, by norm_num,
    (batchLights_within_capacity ⟨12, 0, fun _ => 0⟩ _ rfl
      (by norm_num)).1,
    ((batchLights_within_capacity ⟨12, 0, fun _ => 0⟩ _ rfl
      (by norm_num)).2.2).1⟩

/-- C3: every vertex emitted by a `batchLight` call carries the
premultiplied colour `r/g/b = light.color.{r,g,b} × light.intensity` and
`a = camera.alpha × light.alpha`, independently of the corner geometry. -/
theorem batchLight_premultiplied_color (st : BatchState)
    (light : Light) (camera : Camera)
    (x0 y0 x1 y1 x2 y2 x3 y3 lightX lightY : ℚ) (v : LightVertex)
    (hv : BEvent.vert v ∈
      (batchLight st light camera x0 y0 x1 y1 x2 y2 x3 y3 lightX lightY).2) :
    v.r = light.color.r * light.intensity ∧
    v.g = light.color.g * light.intensity ∧
    v.b = light.color.b * light.intensity ∧
    v.a = camera.alpha * light.alpha := by
  have h := congrArg Prod.snd (applyCall_eq st
    ⟨light, camera, x0, y0, x1, y1, x2, y2, x3, y3, lightX, lightY⟩)
  simp only [applyCall] at h
  rw [h] at hv
  rcases List.mem_append.1 hv with hl | hr
  · by_cases hf : shouldFlush st 6 <;> simp [hf] at hl
  · simp only [callEvents, quadList, List.map, List.mem_cons,
      List.not_mem_nil, or_false, BEvent.vert.injEq] at hr
    rcases hr with rfl | rfl | rfl | rfl | rfl | rfl <;>
      exact ⟨rfl, rfl, rfl, rfl⟩

/-- C3 witness: a concrete call with non-trivial colour factors, checked
on its first emitted vertex. -/
theorem batchLight_premultiplied_color_witness :
    (BEvent.vert ⟨0, 0, 5, 5, 13, 2 * 5, 3 * 5, 4 * 5, 11 * 7⟩ ∈
      (batchLight (⟨12, 0, fun _ => 0⟩ : BatchState)
        ⟨0, 0, ⟨2, 3, 4⟩, 2, 3, 4, 5, 13, 7, 1, 1, false⟩
        ⟨0, 0, 0, 1, 0, 0, 11, false, fun x y => (x, y)⟩
        0 0 1 0 1 1 0 1 5 5).2) ∧
    ((⟨0, 0, 5, 5, 13, 2 * 5, 3 * 5, 4 * 5, 11 * 7⟩ : LightVertex).r =
        (2 : ℚ) * 5 ∧
     (⟨0, 0, 5, 5, 13, 2 * 5, 3 * 5, 4 * 5, 11 * 7⟩ : LightVertex).g =
        (3 : ℚ) * 5 ∧
     (⟨0, 0, 5, 5, 13, 2 * 5, 3 * 5, 4 * 5, 11 * 7⟩ : LightVertex).b =
        (4 : ℚ) * 5 ∧
     (⟨0, 0, 5, 5, 13, 2 * 5, 3 * 5, 4 * 5, 11 * 7⟩ : LightVertex).a =
        (11 : ℚ) * 7) :=
  ⟨by exact List.Mem.head _,
    batchLight_premultiplied_color ⟨12, 0, fun _ => 0⟩
      ⟨0, 0, ⟨2, 3, 4⟩, 2, 3, 4, 5, 13, 7, 1, 1, false⟩
      ⟨0, 0, 0, 1, 0, 0, 11, false, fun x y => (x, y)⟩
      0 0 1 0 1 1 0 1 5 5 _ (by exact List.Mem.head _)⟩

/-! ### Lemmas about `syncLights` and `onRender` -/

theorem syncLight_slots_ne (height : ℚ) (camera : Camera)
    (slots : ℕ → UniSlot) (i : ℕ) (light : Light) (j : ℕ) (hj : j ≠ i) :
    (syncLight height camera slots i light).1 j = slots j := by
  by_cases hd : light.dirty <;> simp [syncLight, hd, hj]

theorem syncLight_pos (height : ℚ) (camera : Camera)
    (slots : ℕ → UniSlot) (i : ℕ) (light : Light) :
    ((syncLight height camera slots i light).1 i).posX =
      (specLightScreenPos height camera light).1 ∧
    ((syncLight height camera slots i light).1 i).posY =
      (specLightScreenPos height camera light).2 := by
  by_cases hd : light.dirty <;>
    simp [syncLight, hd, specLightScreenPos]

theorem syncLight_events_head (height : ℚ) (camera : Camera)
    (slots : ℕ → UniSlot) (i : ℕ) (light : Light) :
    UEvent.uploadPosition i (specLightScreenPos height camera light).1
        (specLightScreenPos height camera light).2 ∈
      (syncLight height camera slots i light).2.2 := by
  by_cases hd : light.dirty <;>
    simp [syncLight, hd, specLightScreenPos]

theorem syncLights_slots_outside (height : ℚ) (camera : Camera)
    (ls : List Light) :
    ∀ (slots : ℕ → UniSlot) (i0 j : ℕ),
      (j < i0 ∨ i0 + ls.length ≤ j) →
      (syncLights height camera slots i0 ls).1 j = slots j := by
  induction ls with
  | nil => intro slots i0 j _; rfl
  | cons l ls ih =>
    intro slots i0 j hj
    have hlen : (l :: ls).length = ls.length + 1 := by simp
    rw [hlen] at hj
    have hne : j ≠ i0 := by rcases hj with h | h <;> omega
    have hj' : j < i0 + 1 ∨ (i0 + 1) + ls.length ≤ j := by
      rcases hj with h | h
      · exact Or.inl (by omega)
      · exact Or.inr (by omega)
    calc (syncLights height camera slots i0 (l :: ls)).1 j
        = (syncLights height camera
            ((syncLight height camera slots i0 l).1) (i0 + 1) ls).1 j := rfl
      _ = (syncLight height camera slots i0 l).1 j :=
            ih ((syncLight height camera slots i0 l).1) (i0 + 1) j hj'
      _ = slots j := syncLight_slots_ne height camera slots i0 l j hne

theorem syncLights_pos (height : ℚ) (camera : Camera) (ls : List Light) :
    ∀ (slots : ℕ → UniSlot) (i0 n : ℕ) (hn : n < ls.length),
      ((syncLights height camera slots i0 ls).1 (i0 + n)).posX =
        (specLightScreenPos height camera (ls.get ⟨n, hn⟩)).1 ∧
      ((syncLights height camera slots i0 ls).1 (i0 + n)).posY =
        (specLightScreenPos height camera (ls.get ⟨n, hn⟩)).2 := by
  induction ls with
  | nil => intro slots i0 n hn; simp at hn
  | cons l ls ih =>
    intro slots i0 n hn
    have e1 : (syncLights height camera slots i0 (l :: ls)).1 =
        (syncLights height camera ((syncLight height camera slots i0 l).1)
          (i0 + 1) ls).1 := rfl
    match n with
    | 0 =>
      rw [Nat.add_zero, e1,
        syncLights_slots_outside height camera ls _ (i0 + 1) i0
          (Or.inl (by omega))]
      exact syncLight_pos height camera slots i0 l
    | n + 1 =>
      rw [e1, show i0 + (n + 1) = (i0 + 1) + n by omega]
      exact ih _ (i0 + 1) n (by simpa using hn)

theorem syncLights_events_mem (height : ℚ) (camera : Camera)
    (ls : List Light) :
    ∀ (slots : ℕ → UniSlot) (i0 n : ℕ) (hn : n < ls.length),
      UEvent.uploadPosition (i0 + n)
          (specLightScreenPos height camera (ls.get ⟨n, hn⟩)).1
          (specLightScreenPos height camera (ls.get ⟨n, hn⟩)).2 ∈
        (syncLights height camera slots i0 ls).2.2 := by
  induction ls with
  | nil => intro slots i0 n hn; simp at hn
  | cons l ls ih =>
    intro slots i0 n hn
    have e2 : (syncLights height camera slots i0 (l :: ls)).2.2 =
        (syncLight height camera slots i0 l).2.2 ++
          (syncLights height camera ((syncLight height camera slots i0 l).1)
            (i0 + 1) ls).2.2 := rfl
    rw [e2]
    match n with
    | 0 =>
      rw [Nat.add_zero]
      exact List.mem_append_left _
        (syncLight_events_head height camera slots i0 l)
    | n + 1 =>
      rw [show i0 + (n + 1) = (i0 + 1) + n by omega]
      exact List.mem_append_right _ (ih _ (i0 + 1) n (by simpa using hn))

theorem onRender_expand (cap : ℕ) (height : ℚ) (ambient : RGB)
    (st : UniformState) (lights : List Light) (camera : Camera)
    (h0 : 0 < min lights.length cap) :
    onRender cap height ambient st lights camera =
      ({ active := true,
         lightCount := min lights.length cap,
         slots := (syncLights height camera
           (if min lights.length cap ≠ st.lightCount then
             resetRadii st.slots cap else st.slots)
           0 (lights.take (min lights.length cap))).1 },
       (syncLights height camera
           (if min lights.length cap ≠ st.lightCount then
             resetRadii st.slots cap else st.slots)
           0 (lights.take (min lights.length cap))).2.1 ++
         lights.drop (min lights.length cap),
       (if min lights.length cap ≠ st.lightCount then
           (List.range cap).map UEvent.resetRadius else []) ++
         (if camera.dirty then
           [UEvent.uploadCamera camera.x camera.y camera.rotation
             camera.zoom] else []) ++
         [UEvent.uploadAmbient ambient.r ambient.g ambient.b] ++
         (syncLights height camera
           (if min lights.length cap ≠ st.lightCount then
             resetRadii st.slots cap else st.slots)
           0 (lights.take (min lights.length cap))).2.2) := by
  by_cases hne : min lights.length cap ≠ st.lightCount
  · simp [onRender, h0.ne', hne]
  · push_neg at hne
    rw [hne] at h0
    simp [onRender, h0.ne', hne]

theorem onRender_lightCount (cap : ℕ) (height : ℚ) (ambient : RGB)
    (st : UniformState) (lights : List Light) (camera : Camera)
    (h0 : 0 < min lights.length cap) :
    (onRender cap height ambient st lights camera).1.lightCount =
      min lights.length cap := by
  rw [onRender_expand cap height ambient st lights camera h0]

/-! ### Claim theorems for `onRender` -/

/-- C7: for each active light at index `i` the synced slot position is
the light's world position through the camera's transform matrix, with
the scroll offset scaled by zoom and scroll factor subtracted and the Y
coordinate flipped against the render-target height
(`specLightScreenPos`), and the position upload event is emitted; this
holds for every light regardless of its dirty flag — there is no
dirty-skip on positions. -/
theorem onRender_position_formula (cap : ℕ) (height : ℚ) (ambient : RGB)
    (st : UniformState) (lights : List Light) (camera : Camera)
    (i : ℕ) (hi : i < min lights.length cap) :
    ((onRender cap height ambient st lights camera).1.slots i).posX =
      (specLightScreenPos height camera
        (lights.get ⟨i, lt_of_lt_of_le hi (Nat.min_le_left _ _)⟩)).1 ∧
    ((onRender cap height ambient st lights camera).1.slots i).posY =
      (specLightScreenPos height camera
        (lights.get ⟨i, lt_of_lt_of_le hi (Nat.min_le_left _ _)⟩)).2 ∧
    UEvent.uploadPosition i
        (specLightScreenPos height camera
          (lights.get ⟨i, lt_of_lt_of_le hi (Nat.min_le_left _ _)⟩)).1
        (specLightScreenPos height camera
          (lights.get ⟨i, lt_of_lt_of_le hi (Nat.min_le_left _ _)⟩)).2 ∈
      (onRender cap height ambient st lights camera).2.2 := by
  have h0 : 0 < min lights.length cap := Nat.lt_of_le_of_lt (Nat.zero_le i) hi
  rw [onRender_expand cap height ambient st lights camera h0]
  have htk : (lights.take (min lights.length cap)).length =
      min lights.length cap := by
    rw [List.length_take]; omega
  have hi' : i < (lights.take (min lights.length cap)).length := by omega
  have hget : (lights.take (min lights.length cap)).get ⟨i, hi'⟩ =
      lights.get ⟨i, lt_of_lt_of_le hi (Nat.min_le_left _ _)⟩ := by
    simp [List.getElem_take]
  have hpos := syncLights_pos height camera
    (lights.take (min lights.length cap))
    (if min lights.length cap ≠ st.lightCount then
      resetRadii st.slots cap else st.slots) 0 i hi'
  have hmem := syncLights_events_mem height camera
    (lights.take (min lights.length cap))
    (if min lights.length cap ≠ st.lightCount then
      resetRadii st.slots cap else st.slots) 0 i hi'
  rw [Nat.zero_add, hget] at hpos hmem
  exact ⟨hpos.1, hpos.2, List.mem_append_right _ hmem⟩

/-- C7 witness: a single concrete light with non-trivial camera
transform, scroll, zoom and scroll factor; its slot gets the documented
screen position. -/
theorem onRender_position_formula_witness :
    (0 < min ([⟨3, 4, ⟨1, 1, 1⟩, 1, 1, 1, 1, 5, 1, 2, 3, false⟩] :
        List Light).length 10) ∧
    ((onRender 10 100 ⟨0, 0, 0⟩ ⟨false, 0, fun _ => ⟨0, 0, 0, 0, 0, 0, 0⟩⟩
        [⟨3, 4, ⟨1, 1, 1⟩, 1, 1, 1, 1, 5, 1, 2, 3, false⟩]
        ⟨0, 0, 0, 2, 7, 11, 1, false,
          fun x y => (x + 1, y + 2)⟩).1.slots 0).posX =
      (specLightScreenPos 100
        ⟨0, 0, 0, 2, 7, 11, 1, false, fun x y => (x + 1, y + 2)⟩
        ⟨3, 4, ⟨1, 1, 1⟩, 1, 1, 1, 1, 5, 1, 2, 3, false⟩).1 :=
  ⟨by norm_num,
    (onRender_position_formula 10 100 ⟨0, 0, 0⟩
      ⟨false, 0, fun _ => ⟨0, 0, 0, 0, 0, 0, 0⟩⟩
      [⟨3, 4, ⟨1, 1, 1⟩, 1, 1, 1, 1, 5, 1, 2, 3, false⟩]
      ⟨0, 0, 0, 2, 7, 11, 1, false, fun x y => (x + 1, y + 2)⟩
      0 (by norm_num)).1⟩

/-- C6 counterexample: when the active light count drops to zero the
sync is a pass-through (`lightCount === 0` returns early), so nothing is
zeroed: after a first sync with one dirty light of radius 5 and a second
sync with zero active lights, slot 0 — which lies in `[M, N) = [0, 1)` —
still has radius 5, not 0. -/
theorem onRender_shrink_to_zero_skips_reset :
    ((onRender 10 100 ⟨0, 0, 0⟩
        (onRender 10 100 ⟨0, 0, 0⟩ ⟨false, 0, fun _ => ⟨0, 0, 0, 0, 0, 0, 0⟩⟩
          [⟨1, 2, ⟨1, 1, 1⟩, 1, 1, 1, 1, 5, 1, 1, 1, true⟩]
          ⟨0, 0, 0, 1, 0, 0, 1, false, fun x y => (x, y)⟩).1
        [] ⟨0, 0, 0, 1, 0, 0, 1, false, fun x y => (x, y)⟩).1.slots 0).radius
      = 5 ∧ (5 : ℚ) ≠ 0 :=
  ⟨by decide, by norm_num⟩

/-- C6 amended: if the active count decreases from `N` to `M` across
consecutive syncs **and the new count `M` is nonzero** (a zero count is a
pass-through that skips the reset), the second sync zeroes every radius
slot in `[0, maxCapacity)` before its per-light uploads (its trace starts
with the full reset sequence), records the new count, and afterwards
every slot in `[M, N)` has radius 0 regardless of prior values. -/
theorem onRender_shrink_zeroes_stale_slots (cap : ℕ)
    (height1 height2 : ℚ) (amb1 amb2 : RGB) (st : UniformState)
    (L1 L2 : List Light) (cam1 cam2 : Camera)
    (hM : 0 < min L2.length cap)
    (hMN : min L2.length cap < min L1.length cap) :
    (onRender cap height2 amb2
        (onRender cap height1 amb1 st L1 cam1).1 L2 cam2).1.lightCount =
      min L2.length cap ∧
    ((List.range cap).map UEvent.resetRadius <+:
      (onRender cap height2 amb2
        (onRender cap height1 amb1 st L1 cam1).1 L2 cam2).2.2) ∧
    ∀ j, min L2.length cap ≤ j → j < min L1.length cap →
      ((onRender cap height2 amb2
          (onRender cap height1 amb1 st L1 cam1).1 L2 cam2).1.slots j).radius
        = 0 := by
  have hN : 0 < min L1.length cap := hM.trans hMN
  have hlc1 : (onRender cap height1 amb1 st L1 cam1).1.lightCount =
      min L1.length cap :=
    onRender_lightCount cap height1 amb1 st L1 cam1 hN
  have hne : min L2.length cap ≠
      (onRender cap height1 amb1 st L1 cam1).1.lightCount := by
    rw [hlc1]; exact hMN.ne
  have hexp := onRender_expand cap height2 amb2
    (onRender cap height1 amb1 st L1 cam1).1 L2 cam2 hM
  have htk2 : (L2.take (min L2.length cap)).length = min L2.length cap := by
    rw [List.length_take]; omega
  refine ⟨onRender_lightCount cap height2 amb2 _ L2 cam2 hM, ?_, ?_⟩
  · have htr := congrArg
      (fun p : UniformState × List Light × List UEvent => p.2.2) hexp
    simp only at htr
    rw [htr, if_pos hne, List.append_assoc, List.append_assoc]
    exact List.prefix_append _ _
  · intro j hj1 hj2
    have hjcap : j < cap := lt_of_lt_of_le hj2 (Nat.min_le_right _ _)
    have hsl := congrArg
      (fun p : UniformState × List Light × List UEvent => p.1.slots) hexp
    simp only at hsl
    rw [hsl, if_pos hne,
      syncLights_slots_outside height2 cam2 (L2.take (min L2.length cap))
        (resetRadii (onRender cap height1 amb1 st L1 cam1).1.slots cap) 0 j
        (Or.inr (by omega))]
    simp [resetRadii, hjcap]

/-- C6 amended witness: capacity 3, three lights then one light; slots 1
and 2 end with radius 0 and the second trace starts with the reset
sequence. -/
theorem onRender_shrink_zeroes_stale_slots_witness :
    (0 < min ([⟨0, 0, ⟨1, 1, 1⟩, 1, 1, 1, 1, 9, 1, 1, 1, true⟩] :
        List Light).length 3) ∧
    (min ([⟨0, 0, ⟨1, 1, 1⟩, 1, 1, 1, 1, 9, 1, 1, 1, true⟩] :
        List Light).length 3 <
      min ([⟨0, 0, ⟨1, 1, 1⟩, 1, 1, 1, 1, 5, 1, 1, 1, true⟩,
            ⟨0, 0, ⟨1, 1, 1⟩, 1, 1, 1, 1, 6, 1, 1, 1, true⟩,
            ⟨0, 0, ⟨1, 1, 1⟩, 1, 1, 1, 1, 7, 1, 1, 1, true⟩] :
        List Light).length 3) ∧
    (∀ j, min ([⟨0, 0, ⟨1, 1, 1⟩, 1, 1, 1, 1, 9, 1, 1, 1, true⟩] :
          List Light).length 3 ≤ j →
        j < min ([⟨0, 0, ⟨1, 1, 1⟩, 1, 1, 1, 1, 5, 1, 1, 1, true⟩,
              ⟨0, 0, ⟨1, 1, 1⟩, 1, 1, 1, 1, 6, 1, 1, 1, true⟩,
              ⟨0, 0, ⟨1, 1, 1⟩, 1, 1, 1, 1, 7, 1, 1, 1, true⟩] :
            List Light).length 3 →
        ((onRender 3 100 ⟨0, 0, 0⟩
            (onRender 3 100 ⟨0, 0, 0⟩
              ⟨false, 0, fun _ => ⟨0, 0, 0, 0, 0, 0, 0⟩⟩
              [⟨0, 0, ⟨1, 1, 1⟩, 1, 1, 1, 1, 5, 1, 1, 1, true⟩,
               ⟨0, 0, ⟨1, 1, 1⟩, 1, 1, 1, 1, 6, 1, 1, 1, true⟩,
               ⟨0, 0, ⟨1, 1, 1⟩, 1, 1, 1, 1, 7, 1, 1, 1, true⟩]
              ⟨0, 0, 0, 1, 0, 0, 1, false, fun x y => (x, y)⟩).1
            [⟨0, 0, ⟨1, 1, 1⟩, 1, 1, 1, 1, 9, 1, 1, 1, true⟩]
            ⟨0, 0, 0, 1, 0, 0, 1, false,
              fun x y => (x, y)⟩).1.slots j).radius = 0) :=
  ⟨by norm_num, by norm_num,
    (onRender_shrink_zeroes_stale_slots 3 100 100 ⟨0, 0, 0⟩ ⟨0, 0, 0⟩
      ⟨false, 0, fun _ => ⟨0, 0, 0, 0, 0, 0, 0⟩⟩
      [⟨0, 0, ⟨1, 1, 1⟩, 1, 1, 1, 1, 5, 1, 1, 1, true⟩,
       ⟨0, 0, ⟨1, 1, 1⟩, 1, 1, 1, 1, 6, 1, 1, 1, true⟩,
       ⟨0, 0, ⟨1, 1, 1⟩, 1, 1, 1, 1, 7, 1, 1, 1, true⟩]
      [⟨0, 0, ⟨1, 1, 1⟩, 1, 1, 1, 1, 9, 1, 1, 1, true⟩]
      ⟨0, 0, 0, 1, 0, 0, 1, false, fun x y => (x, y)⟩
      ⟨0, 0, 0, 1, 0, 0, 1, false, fun x y => (x, y)⟩
      (by norm_num) (by norm_num)).2.2⟩

/-! ### Claim theorem for `getNormalMap` -/

/-- C8: when no normal map is resolvable from a renderable by any of the
resolution paths (own display texture data source, plain texture data
source, tileset image data source), and also when no renderable is given,
`getNormalMap` on the booted pipeline returns the default normal map
created at boot: the 1×1 texture with bytes (127, 127, 255, 255), a
flat, camera-facing normal. -/
theorem getNormalMap_falls_back_to_default :
    flatNormalTexture = ⟨1, 1, [127, 127, 255, 255]⟩ ∧
    boot.defaultNormalMap.glTexture = flatNormalTexture ∧
    getNormalMap boot none = some flatNormalTexture ∧
    ∀ g : GameObject, noResolvableNormalMap g →
      getNormalMap boot (some g) = some flatNormalTexture := by
  refine ⟨rfl, rfl, rfl, ?_⟩
  intro g hg
  obtain ⟨hdt, ht, hts1, htsa, htse⟩ := hg
  rcases hDT : g.displayTexture with _ | dt
  · rcases hT : g.texture with _ | t
    · rcases hTS : g.tileset with _ | tsp
      · simp [getNormalMap, hDT, hT, hTS, boot]
      · rcases tsp with t | ts
        · have h1 := hts1 t hTS
          rw [List.getD_eq_getElem?_getD] at h1
          simp [getNormalMap, hDT, hT, hTS, h1, boot]
        · rcases ts with _ | ⟨t, ts⟩
          · exact absurd hTS htse
          · have h1 := htsa t ts hTS
            rw [List.getD_eq_getElem?_getD] at h1
            simp [getNormalMap, hDT, hT, hTS, h1, boot]
    · have h1 := ht t hT
      rw [List.getD_eq_getElem?_getD] at h1
      simp [getNormalMap, hDT, hT, h1, boot]
  · have h1 := hdt dt hDT
    rw [List.getD_eq_getElem?_getD] at h1
    simp [getNormalMap, hDT, h1, boot]

/-- C8 witness: a renderable whose display texture has no data source
entry at the frame's source index resolves to the boot default. -/
theorem getNormalMap_falls_back_to_default_witness :
    noResolvableNormalMap ⟨some ⟨[none]⟩, ⟨0⟩, none, ⟨0⟩, none⟩ ∧
    getNormalMap boot (some ⟨some ⟨[none]⟩, ⟨0⟩, none, ⟨0⟩, none⟩) =
      some flatNormalTexture :=
  ⟨by simp [noResolvableNormalMap],
   getNormalMap_falls_back_to_default.2.2.2
     ⟨some ⟨[none]⟩, ⟨0⟩, none, ⟨0⟩, none⟩
     (by simp [noResolvableNormalMap])⟩

/-! ### Claim theorems for `setNormalMapRotation` -/

/-- C10: only the top-left 2×2 block of the stored 3×3 matrix is ever
modified: the constructor's matrix has entries 2, 5, 6, 7 equal to 0 and
entry 8 equal to 1, and every `setNormalMapRotation` call preserves that,
so the uploaded matrix is always a pure 2D rotation in homogeneous form. -/
theorem setNormalMapRotation_fixed_homogeneous_part :
    Mat3.fixedHomogeneousPart idMat3 ∧
    ∀ (st : RotState) (rotation : ℝ),
      Mat3.fixedHomogeneousPart st.inverseRotationMatrix →
      Mat3.fixedHomogeneousPart
        (setNormalMapRotation st rotation).1.inverseRotationMatrix := by
  refine ⟨⟨rfl, rfl, rfl, rfl, rfl⟩, ?_⟩
  intro st rotation hfix
  obtain ⟨f2, f5, f6, f7, f8⟩ := hfix
  by_cases h1 : some rotation ≠ st.currentNormalMapRotation ∨
      st.vertexCount = 0
  · by_cases h3 : rotation = 0
    · subst h3
      by_cases h2 : 0 < st.vertexCount <;>
        simp [setNormalMapRotation, h1, h2, Mat3.fixedHomogeneousPart,
          f2, f5, f6, f7, f8]
    · by_cases h2 : 0 < st.vertexCount <;>
        simp [setNormalMapRotation, h1, h2, h3, Mat3.fixedHomogeneousPart,
          f2, f5, f6, f7, f8]
  · simp [setNormalMapRotation, h1, Mat3.fixedHomogeneousPart,
      f2, f5, f6, f7, f8]

/-- C10 witness: the invariant holds after a concrete call on the boot
state. -/
theorem setNormalMapRotation_fixed_homogeneous_part_witness :
    Mat3.fixedHomogeneousPart
      (setNormalMapRotation ⟨0, none, idMat3⟩ 0).1.inverseRotationMatrix :=
  setNormalMapRotation_fixed_homogeneous_part.2 ⟨0, none, idMat3⟩ 0
    ⟨rfl, rfl, rfl, rfl, rfl⟩

/-- C4 counterexample: with an empty batch (`vertexCount = 0`), calling
`setNormalMapRotation` twice in a row with the same angle uploads the
uniform twice — the `vertexCount === 0` disjunct re-enters the update
branch, so the second call is not a no-op. -/
theorem setNormalMapRotation_repeat_uploads_twice :
    (setNormalMapRotation ⟨0, none, idMat3⟩ 1).2 =
      [REvent.uploadMatrix ⟨Real.cos (-1), Real.sin (-1), 0,
        -Real.sin (-1), Real.cos (-1), 0, 0, 0, 1⟩] ∧
    (setNormalMapRotation (setNormalMapRotation ⟨0, none, idMat3⟩ 1).1 1).2 =
      [REvent.uploadMatrix ⟨Real.cos (-1), Real.sin (-1), 0,
        -Real.sin (-1), Real.cos (-1), 0, 0, 0, 1⟩] ∧
    (setNormalMapRotation
      (setNormalMapRotation ⟨0, none, idMat3⟩ 1).1 1).2 ≠ [] := by
  refine ⟨?_, ?_, ?_⟩ <;> simp [setNormalMapRotation, idMat3]

/-- C4 amended: the second same-angle call is a no-op (no flush, no
upload) provided at least one vertex is pending in the batch when it
runs — equivalently, whenever the batch is still non-empty after the
first call.  (With an empty batch the uniform is re-uploaded, see the
counterexample.) -/
theorem setNormalMapRotation_second_call_noop_of_pending (st : RotState)
    (a : ℝ) (h : 0 < (setNormalMapRotation st a).1.vertexCount) :
    (setNormalMapRotation (setNormalMapRotation st a).1 a).2 = [] := by
  by_cases hc : some a ≠ st.currentNormalMapRotation ∨ st.vertexCount = 0
  · exfalso
    have hz : (setNormalMapRotation st a).1.vertexCount = 0 := by
      by_cases h2 : 0 < st.vertexCount
      · simp [setNormalMapRotation, hc, h2]
      · simp [setNormalMapRotation, hc, h2]
        omega
    omega
  · have e : setNormalMapRotation st a = (st, []) := by
      simp [setNormalMapRotation, hc]
    rw [e]
    simp [setNormalMapRotation, hc]

/-- C4 amended witness: angle already current and three vertices
pending — the second call emits nothing. -/
theorem setNormalMapRotation_second_call_noop_of_pending_witness :
    0 < (setNormalMapRotation ⟨3, some 1, idMat3⟩ 1).1.vertexCount ∧
    (setNormalMapRotation
      (setNormalMapRotation ⟨3, some 1, idMat3⟩ 1).1 1).2 = [] :=
  ⟨by simp [setNormalMapRotation],
   setNormalMapRotation_second_call_noop_of_pending ⟨3, some 1, idMat3⟩ 1
     (by simp [setNormalMapRotation])⟩

/-- C5: calling `setNormalMapRotation` with an angle different from the
last-applied one while vertices are pending performs exactly one flush,
strictly before the single uniform upload, and the uploaded matrix is the
rotation-by-negative-angle matrix in the top-left 2×2 block with the
remaining diagonal entry 1 (`specInverseRotation`; at angle 0 its block is
the identity since `cos 0 = 1`, `sin 0 = 0`).  The entry equations spell
out the column-major reading of the stored array. -/
theorem setNormalMapRotation_change_flush_then_upload (st : RotState)
    (a : ℝ) (hne : some a ≠ st.currentNormalMapRotation)
    (hpend : 0 < st.vertexCount)
    (hfix : Mat3.fixedHomogeneousPart st.inverseRotationMatrix) :
    (setNormalMapRotation st a).2 =
      [REvent.flush, REvent.uploadMatrix (specInverseRotation a)] ∧
    (setNormalMapRotation st a).1.inverseRotationMatrix =
      specInverseRotation a ∧
    (specInverseRotation a).entry 0 0 = Real.cos (-a) ∧
    (specInverseRotation a).entry 0 1 = -Real.sin (-a) ∧
    (specInverseRotation a).entry 1 0 = Real.sin (-a) ∧
    (specInverseRotation a).entry 1 1 = Real.cos (-a) ∧
    (specInverseRotation a).entry 0 2 = 0 ∧
    (specInverseRotation a).entry 1 2 = 0 ∧
    (specInverseRotation a).entry 2 0 = 0 ∧
    (specInverseRotation a).entry 2 1 = 0 ∧
    (specInverseRotation a).entry 2 2 = 1 := by
  obtain ⟨f2, f5, f6, f7, f8⟩ := hfix
  have hcond : some a ≠ st.currentNormalMapRotation ∨ st.vertexCount = 0 :=
    Or.inl hne
  by_cases ha : a = 0
  · subst ha
    refine ⟨?_, ?_, rfl, rfl, rfl, rfl, rfl, rfl, rfl, rfl, rfl⟩ <;>
      simp [setNormalMapRotation, hcond, hpend, specInverseRotation,
        f2, f5, f6, f7, f8]
  · refine ⟨?_, ?_, rfl, rfl, rfl, rfl, rfl, rfl, rfl, rfl, rfl⟩ <;>
      simp [setNormalMapRotation, hcond, hpend, ha, specInverseRotation,
        f2, f5, f6, f7, f8]

/-- C5 witness (the spec's Scenario C): rotation changes from 0 to π/2
with 6 vertices pending — one flush, then an upload of
`[[0, 1, 0], [-1, 0, 0], [0, 0, 1]]` (column-major storage
`[0, -1, 0, 1, 0, 0, 0, 0, 1]`). -/
theorem setNormalMapRotation_change_flush_then_upload_witness :
    (setNormalMapRotation ⟨6, some 0, idMat3⟩ (Real.pi / 2)).2 =
      [REvent.flush,
       REvent.uploadMatrix (specInverseRotation (Real.pi / 2))] ∧
    (specInverseRotation (Real.pi / 2)).entry 0 0 = 0 ∧
    (specInverseRotation (Real.pi / 2)).entry 0 1 = 1 ∧
    (specInverseRotation (Real.pi / 2)).entry 1 0 = -1 ∧
    (specInverseRotation (Real.pi / 2)).entry 1 1 = 0 ∧
    (specInverseRotation (Real.pi / 2)).entry 0 2 = 0 ∧
    (specInverseRotation (Real.pi / 2)).entry 1 2 = 0 ∧
    (specInverseRotation (Real.pi / 2)).entry 2 0 = 0 ∧
    (specInverseRotation (Real.pi / 2)).entry 2 1 = 0 ∧
    (specInverseRotation (Real.pi / 2)).entry 2 2 = 1 := by
  have h := setNormalMapRotation_change_flush_then_upload
    ⟨6, some 0, idMat3⟩ (Real.pi / 2)
    (by
      simp only [ne_eq, Option.some.injEq]
      exact Real.pi_div_two_pos.ne')
    (by norm_num) ⟨rfl, rfl, rfl, rfl, rfl⟩
  refine ⟨h.1, ?_, ?_, ?_, ?_, ?_, ?_, ?_, ?_, ?_⟩ <;>
    simp [specInverseRotation, Mat3.entry, Real.cos_pi_div_two,
      Real.sin_pi_div_two]

end LightPipeline
